import Mathlib

/-!
Verification development for `pystemd/run.py` (the `pystemd.run` orchestration
engine).  The Python source is shallowly embedded below:

* Python dictionaries (insertion-ordered, unique keys, `None`-able values)
  become the association-list type `PyDict` with `get` / `set` / `update` /
  `popKey` mirroring `d[k]`, `d[k] = v`, `d.update(e)` and `d.pop(k, default)`.
* `CExit` (run.py lines 30-42) becomes a structure holding the registration
  `pipe`; `__exit__` becomes `CExit.exitRun`, which ignores the exception
  arguments exactly as the source does.
* The transient-unit property assembly (run.py lines 162-260) becomes
  `buildUnitProperties`.
* The pty acquisition / terminal bridging block (run.py lines 182-222) and the
  monitor-close registration (line 278) become `runSetup`; terminal state is a
  map from file descriptors to termios attribute lists, and the cleanup
  actions registered with `CExit` are reified by the `Cleanup` inductive.
* The wait loop's completion decisions (run.py lines 291-328) become
  `monitorCompletes`, `pollBreak` and `iterBreaks`.
* The failure policy (run.py lines 330-336) becomes `checkRaise`.

Byte strings are modelled as `String` (all constants involved are ASCII);
machine integers are exact (`Int` / `Nat`), which matches CPython integers.
-/

/-! ## Python dictionaries over heterogeneous unit-property values -/

abbrev Key := String

/-- One marshalled command element, as produced by the command-array
marshalling utility (opaque for our purposes). -/
abbrev Cmd := String

/-- The value types that appear in the `unit_properties` dictionary of
`run.py`: byte strings, integers, booleans, command arrays and string
lists (the serialized environment). -/
inductive PV where
  | vstr : String → PV
  | vnum : Int → PV
  | vbool : Bool → PV
  | vcmds : List Cmd → PV
  | vstrs : List String → PV
deriving DecidableEq

/-- A Python dict with `None`-able values: an insertion-ordered association
list.  `none` as a value models Python's `None`; a missing key is modelled
by `PyDict.get` returning `none` at the outer `Option` layer. -/
abbrev PyDict := List (Key × Option PV)

/-- `d.get(k)` / `d[k]`: the value at the first occurrence of `k`. -/
def PyDict.get : PyDict → Key → Option (Option PV)
  | [], _ => none
  | (k0, v0) :: d, k => if k0 = k then some v0 else PyDict.get d k

/-- `d[k] = v`: replace in place if the key exists, else append. -/
def PyDict.set : PyDict → Key → Option PV → PyDict
  | [], k, v => [(k, v)]
  | (k0, v0) :: d, k, v => if k0 = k then (k0, v) :: d else (k0, v0) :: PyDict.set d k v

/-- `d.update(e)`: assign every entry of `e` into `d`, in `e`'s order. -/
def PyDict.update (d e : PyDict) : PyDict :=
  e.foldl (fun acc kv => PyDict.set acc kv.1 kv.2) d

/-- `d.pop(k, default)`, key-removal part: drop the first entry with key `k`. -/
def PyDict.popKey : PyDict → Key → PyDict
  | [], _ => []
  | (k0, v0) :: d, k => if k0 = k then d else (k0, v0) :: PyDict.popKey d k

/-- The key list of a dict. -/
def PyDict.keys (d : PyDict) : List Key := d.map Prod.fst

/-- The final dict comprehension of run.py line 260:
`{k: v for k, v in unit_properties.items() if v is not None}`. -/
def elideNone (d : PyDict) : PyDict := d.filter (fun kv => kv.2.isSome)

/-- Lookup in the submitted (already elided) mapping, flattening the two
`Option` layers: `none` means the key is absent. -/
def PyDict.getVal (d : PyDict) (k : Key) : Option PV := (PyDict.get d k).bind id

/-! ## The unit-property builder (run.py lines 162-260) -/

/-- Python truthiness of an optional (byte) string: `None` and the empty
string are falsy. -/
def truthyS : Option String → Bool
  | none => false
  | some s => !s.isEmpty

/-- Modelled from the spec: `x2cmdlist` lives in `pystemd/utils.py`, which is
not under `src/`.  The spec treats command-array marshalling as an external
collaborator that yields "the caller-given command list", empty when the
argument is absent.  We therefore model it as the identity on an
already-marshalled optional command list, with `None` marshalling to `[]`. -/
def x2cmdlist (c : Option (List Cmd)) : List Cmd := c.getD []

/-- `lst or None` on a command list (run.py lines 240-244): an empty list is
falsy and becomes `None`. -/
def orNoneCmds (l : List Cmd) : Option PV :=
  if l.isEmpty then none else some (PV.vcmds l)

/-- run.py lines 251-255: the serialized `Environment` property.  The list
comprehension over `env.items()` followed by `or None`; an empty dict gives
an absent value.  (`x2char_star` on the key/value is modelled as the
identity; it is an external marshalling collaborator per the spec.) -/
def envEntries (env : List (String × String)) : Option PV :=
  if env.isEmpty then none
  else some (PV.vstrs (env.map (fun kv => kv.1 ++ "=" ++ kv.2)))

/-- run.py line 163: `runtime_max_usec = (runtime_max_sec or 0) * 10**6 or
runtime_max_sec`.  `(sec or 0)` is `sec.getD 0`; the outer `or` keeps the
product when it is nonzero (truthy) and otherwise falls back to the raw
`runtime_max_sec` value (`None` or `0`). -/
def runtimeMaxUSec (sec : Option Int) : Option Int :=
  if sec.getD 0 * 1000000 ≠ 0 then some (sec.getD 0 * 1000000) else sec

/-- The value returned by `extra.pop(key, [])` at run.py lines 171-175, used
as the right operand of list concatenation.  An absent key yields the `[]`
default; a present command list is returned; any other present value makes
the concatenation raise `TypeError`, modelled as `none`. -/
def cmdsOf : Option (Option PV) → Option (List Cmd)
  | some (some (PV.vcmds l)) => some l
  | none => some []
  | _ => none

/-- The override command list that `extra.pop(k, [])` contributes for key
`k` (defaulting to `[]` when the pop would raise; only used under a
successful-build hypothesis, where the two agree). -/
def extraCmds (extra : PyDict) (k : Key) : List Cmd :=
  (cmdsOf (PyDict.get extra k)).getD []

/-- The parameters of `run` (and values derived before the dict is built)
that the property assembly depends on.  `name` is the already-resolved unit
name of line 162; `env` is the environment dict as it stands when line 251
serializes it; `stdin`/`stdout`/`stderr` are the descriptors after the
`get_fno` normalization of line 165; `pty_path` is the resolved path used at
line 194. -/
structure RunParams where
  cmd : Option (List Cmd)
  stop_cmd : Option (List Cmd)
  stop_post_cmd : Option (List Cmd)
  start_pre_cmd : Option (List Cmd)
  start_post_cmd : Option (List Cmd)
  service_type : Option String
  name : String
  user : Option String
  nice : Option Int
  runtime_max_sec : Option Int
  env : List (String × String)
  extra : PyDict
  cwd : Option String
  remain_after_exit : Bool
  collect : Bool
  slice_ : Option String
  pty_path : Option String
  stdin : Option Nat
  stdout : Option Nat
  stderr : Option Nat

/-- run.py lines 167 and 191-234: the `unit_properties` dict just before the
big `update` of line 236 — the optional `Slice` entry (line 191) followed by
either the tty routing (lines 194-202) or the descriptor routing (lines
223-234).  At line 226 `get_fno(stdin) if stdin else stdin` always equals
`stdin` itself (it is already an `int` or `None` after line 165). -/
def baseDict (p : RunParams) : PyDict :=
  let up1 : PyDict :=
    if truthyS p.slice_ then PyDict.set [] "Slice" (p.slice_.map PV.vstr) else []
  if truthyS p.pty_path then
    PyDict.update up1
      [("StandardInput", some (PV.vstr "tty")),
       ("StandardOutput", some (PV.vstr "tty")),
       ("StandardError", some (PV.vstr "tty")),
       ("TTYPath", p.pty_path.map PV.vstr)]
  else
    PyDict.update up1
      [("StandardInputFileDescriptor", p.stdin.map (fun n => PV.vnum n)),
       ("StandardOutputFileDescriptor", p.stdout.map (fun n => PV.vnum n)),
       ("StandardErrorFileDescriptor", p.stderr.map (fun n => PV.vnum n))]

/-- run.py lines 236-257: the big literal `update` onto `baseDict`, given the
five already-popped override command lists `e1`-`e5`. -/
def bigDict (p : RunParams) (e1 e2 e3 e4 e5 : List Cmd) : PyDict :=
  PyDict.update (baseDict p)
    [("Type", p.service_type.map PV.vstr),
     ("Description", some (PV.vstr ("pystemd: " ++ p.name))),
     ("ExecStartPre", orNoneCmds (x2cmdlist p.start_pre_cmd ++ e4)),
     ("ExecStart", some (PV.vcmds (x2cmdlist p.cmd ++ e1))),
     ("ExecStartPost", orNoneCmds (x2cmdlist p.start_post_cmd ++ e5)),
     ("ExecStop", orNoneCmds (x2cmdlist p.stop_cmd ++ e2)),
     ("ExecStopPost", orNoneCmds (x2cmdlist p.stop_post_cmd ++ e3)),
     ("RemainAfterExit", some (PV.vbool p.remain_after_exit)),
     ("CollectMode", if p.collect then some (PV.vstr "inactive-or-failed") else none),
     ("WorkingDirectory", p.cwd.map PV.vstr),
     ("User", p.user.map PV.vstr),
     ("Nice", p.nice.map PV.vnum),
     ("RuntimeMaxUSec", (runtimeMaxUSec p.runtime_max_sec).map PV.vnum),
     ("Environment", envEntries p.env)]

/-- The extra-overrides dict after the five `pop`s of run.py lines 171-175. -/
def poppedExtra (extra : PyDict) : PyDict :=
  PyDict.popKey
    (PyDict.popKey
      (PyDict.popKey
        (PyDict.popKey (PyDict.popKey extra "ExecStart") "ExecStop")
        "ExecStopPost")
      "ExecStartPre")
    "ExecStartPost"

/-- run.py lines 162-260: the property mapping handed to
`StartTransientUnit` (line 288).  `none` models the `TypeError` raised when
an `ExecStart`-class override in `extra` is present but not a command list.
The five pops (lines 171-175), the conditional routing entries, the big
literal update (line 236), the extra-overrides update (line 259) and the
`None`-elision comprehension (line 260) are performed in source order. -/
def buildUnitProperties (p : RunParams) : Option PyDict := do
  let e1 ← cmdsOf (PyDict.get p.extra "ExecStart")
  let x1 := PyDict.popKey p.extra "ExecStart"
  let e2 ← cmdsOf (PyDict.get x1 "ExecStop")
  let x2 := PyDict.popKey x1 "ExecStop"
  let e3 ← cmdsOf (PyDict.get x2 "ExecStopPost")
  let x3 := PyDict.popKey x2 "ExecStopPost"
  let e4 ← cmdsOf (PyDict.get x3 "ExecStartPre")
  let x4 := PyDict.popKey x3 "ExecStartPre"
  let e5 ← cmdsOf (PyDict.get x4 "ExecStartPost")
  let x5 := PyDict.popKey x4 "ExecStartPost"
  pure (elideNone (PyDict.update (bigDict p e1 e2 e3 e4 e5) x5))

/-! ## The resource guard `CExit` (run.py lines 30-42) -/

/-- `CExit`: `self.pipe = []` on construction; `register` appends a deferred
call.  We abstract the `(call, args, kwargs)` triple as an element of `α`. -/
structure CExit (α : Type) where
  pipe : List α

/-- `CExit.register(meth, *args, **kwargs)`: `self.pipe.append(...)`. -/
def CExit.register {α : Type} (c : CExit α) (a : α) : CExit α :=
  { pipe := c.pipe ++ [a] }

/-- Register a sequence of cleanups one after another. -/
def CExit.registerAll {α : Type} (c : CExit α) (l : List α) : CExit α :=
  l.foldl CExit.register c

/-- `CExit.__exit__(*excargs, **exckw)`: runs every registered call in
reverse registration order, ignoring the exception information (`exc` is
`none` on a normal exit and carries the propagating error otherwise).  The
returned list is the execution trace, in execution order. -/
def CExit.exitRun {α : Type} (c : CExit α) (exc : Option String) : List α :=
  let _ := exc
  c.pipe.reverse

/-! ## PTY acquisition and terminal bridging (run.py lines 182-222, 278) -/

/-- A termios attribute snapshot (`tty.tcgetattr` result), bit-exact. -/
abbrev Attrs := List Int

/-- An environment-dict key: Python distinguishes `b"TERM"` (bytes) from
`"TERM"` (str); `isBytes` records which one a key is. -/
structure EKey where
  isBytes : Bool
  text : String
deriving DecidableEq

/-- The key `b"TERM"` used at run.py lines 214-215. -/
def bTERM : EKey := ⟨true, "TERM"⟩

/-- The caller's `env` dict (values modelled as strings). -/
abbrev EnvMap := List (EKey × String)

/-- `env.get(k)`. -/
def EnvMap.getE : EnvMap → EKey → Option String
  | [], _ => none
  | (k0, v0) :: e, k => if k0 = k then some v0 else EnvMap.getE e k

/-- `env[k] = v`: replace in place or append. -/
def EnvMap.setE : EnvMap → EKey → String → EnvMap
  | [], k, v => [(k, v)]
  | (k0, v0) :: e, k, v =>
    if k0 = k then (k0, v) :: e else (k0, v0) :: EnvMap.setE e k v

/-- The cleanup actions `run` registers with its `CExit` guard:
`os.close(pty_master)` (line 189), `tty.tcsetattr(stdin, tty.TCSAFLUSH,
stdin_attrs)` (line 210) and `monbus.close` (line 278). -/
inductive Cleanup where
  | close : Nat → Cleanup
  | setattrs : Nat → Attrs → Cleanup
  | busClose : Cleanup
deriving DecidableEq

/-- The inputs of the setup phase: the relevant `run` parameters plus the
responses of the external collaborators (the machine's `OpenPTY`, the local
`pty.openpty`, `os.ttyname`, `os.getenv("TERM")`, `tcgetattr` per
descriptor, and the attribute transformation `tty.setraw` performs). -/
structure SetupIn where
  pty : Bool
  machine : Option String
  pty_master : Option Nat
  pty_path : Option String
  stdin : Option Nat
  stdout : Option Nat
  env : EnvMap
  osTERM : Option String
  machineOpenPTY : Nat × String
  localOpenPTY : Nat × Nat
  ttyname : String
  termAttrs : Nat → Attrs
  setraw : Attrs → Attrs
  wait : Bool

/-- run.py lines 182-189: resolve `(pty_master, pty_path)` and register the
close of a locally created master.  Returns the resolved master, path and
the cleanups registered so far. -/
def ptyAcquire (i : SetupIn) : Option Nat × Option String × List Cleanup :=
  if i.pty then
    if truthyS i.machine then
      (some i.machineOpenPTY.1, some i.machineOpenPTY.2, [])
    else
      (some i.localOpenPTY.1, some i.ttyname, [Cleanup.close i.localOpenPTY.1])
  else (i.pty_master, i.pty_path, [])

/-- Result of the stdin raw-mode block (run.py lines 204-211). -/
structure StdinBridgeOut where
  regs : List Cleanup
  sel : List Nat
  captured : Option Attrs
  attrs : Nat → Attrs

/-- run.py lines 204-211: when both `stdin` and the resolved master are
present, snapshot the stdin attributes, switch stdin to raw mode, register
restoration of the snapshot, and add stdin to the selectors. -/
def stdinBridge (stdin master : Option Nat) (termAttrs : Nat → Attrs)
    (setraw : Attrs → Attrs) : StdinBridgeOut :=
  match stdin, master with
  | some s, some _ =>
    { regs := [Cleanup.setattrs s (termAttrs s)]
      sel := [s]
      captured := some (termAttrs s)
      attrs := fun fd => if fd = s then setraw (termAttrs s) else termAttrs fd }
  | _, _ => { regs := [], sel := [], captured := none, attrs := termAttrs }

/-- Result of the stdout block (run.py lines 213-222). -/
structure StdoutBridgeOut where
  env : EnvMap
  sel : List Nat

/-- run.py lines 213-222: when both `stdout` and the resolved master are
present, forward a truthy `os.getenv("TERM")` into `env` under the bytes
key `b"TERM"` (keeping any existing value of that exact key), and add the
master to the selectors.  (The window-size ioctl pair of lines 219-222 has
no effect on any state we model.) -/
def stdoutBridge (stdout master : Option Nat) (env : EnvMap)
    (osTERM : Option String) : StdoutBridgeOut :=
  match stdout, master with
  | some _, some m =>
    { env :=
        match osTERM with
        | some t =>
          if t.isEmpty then env
          else EnvMap.setE env bTERM ((EnvMap.getE env bTERM).getD t)
        | none => env
      sel := [m] }
  | _, _ => { env := env, sel := [] }

/-- The observable outcome of the setup phase. -/
structure SetupOut where
  master : Option Nat
  path : Option String
  regs : List Cleanup
  selectors : List Nat
  captured : Option Attrs
  env : EnvMap
  attrs : Nat → Attrs

/-- run.py lines 182-222 plus the monitor-close registration of line 278:
pty acquisition, then (under a truthy resolved `pty_path`) the stdin and
stdout bridges, then — when waiting — registration of `monbus.close`.
`regs` is the complete registration trace of the call, in registration
order. -/
def runSetup (i : SetupIn) : SetupOut :=
  let a := ptyAcquire i
  let master := a.1
  let path := a.2.1
  let regs0 := a.2.2
  let wb : List Cleanup := if i.wait then [Cleanup.busClose] else []
  if truthyS path then
    let sb := stdinBridge i.stdin master i.termAttrs i.setraw
    let ob := stdoutBridge i.stdout master i.env i.osTERM
    { master := master, path := path
      regs := (regs0 ++ sb.regs) ++ wb
      selectors := sb.sel ++ ob.sel
      captured := sb.captured
      env := ob.env
      attrs := sb.attrs }
  else
    { master := master, path := path
      regs := regs0 ++ wb
      selectors := []
      captured := none
      env := i.env
      attrs := i.termAttrs }

/-- The cleanup trace executed when the `with CExit() as ctexit` scope of
run.py line 180 exits (normally when `exc = none`, or with a propagating
error): the registered cleanups in reverse registration order. -/
def sessionExit (i : SetupIn) (exc : Option String) : List Cleanup :=
  CExit.exitRun { pipe := (runSetup i).regs } exc

/-- Effect of one executed cleanup on the per-descriptor terminal
attributes: `tcsetattr` overwrites one descriptor's attributes; closing a
descriptor or the monitor bus leaves them untouched. -/
def applyCleanup (attrs : Nat → Attrs) : Cleanup → (Nat → Attrs)
  | Cleanup.setattrs fd a => fun g => if g = fd then a else attrs g
  | _ => attrs

/-- Run a cleanup trace over the terminal state. -/
def runCleanups (attrs : Nat → Attrs) (l : List Cleanup) : Nat → Attrs :=
  l.foldl applyCleanup attrs

/-! ## The wait loop's completion decisions (run.py lines 291-328) -/

/-- run.py line 27. -/
def EXIT_SUBSTATES : List String := ["exited", "failed", "dead"]

/-- The interface name checked at run.py line 315. -/
def unitChangeIface : String := "org.freedesktop.systemd1.Unit"

/-- A decoded (non-empty) monitor message: object path (`m.get_path()`), the
interface whose properties changed (`m.body[0]`), and the optional `Job`
and `SubState` entries of the property dictionary (`m.body[1]`). -/
structure MonMsg where
  mpath : String
  miface : String
  mjob : Option (Int × String)
  msubstate : Option String
deriving DecidableEq

/-- run.py line 317: `_, message_job_path = m.body[1].get(b"Job", (0, b"/"))`. -/
def msgJobPath (m : MonMsg) : String := (m.mjob.getD (0, "/")).2

/-- run.py line 321: `m.body[1].get(b"SubState") in EXIT_SUBSTATES`; an
absent substate (`None`) is not in the tuple. -/
def substateIsExit : Option String → Bool
  | some v => decide (v ∈ EXIT_SUBSTATES)
  | none => false

/-- run.py lines 313-323: whether a decoded monitor message makes the wait
loop `break` (the RUNNING → COMPLETED transition of the spec). -/
def monitorCompletes (unitPath startJob : String) (m : MonMsg) : Bool :=
  if m.mpath = unitPath ∧ m.miface = unitChangeIface then
    if msgJobPath m ≠ startJob ∧ substateIsExit m.msubstate = true then true
    else false
  else false

/-- Python truthiness of the `_wait_polling` interval (a float or `None`). -/
def pollTruthy : Option ℚ → Bool
  | none => false
  | some q => decide (q ≠ 0)

/-- run.py lines 325-328: the polling-heuristic break condition —
`_wait_polling` truthy, `select` returned with nothing ready, and
`unit.Service.MainPID == 0`. -/
def pollBreak (wp : Option ℚ) (ready : List Nat) (mainPID : Nat) : Bool :=
  pollTruthy wp && ready.isEmpty && decide (mainPID = 0)

/-- The inputs of one wait-loop iteration that determine whether it exits:
the ready-descriptor snapshot `_in`, the monitor descriptor, the message
pulled from the monitor connection when its descriptor is ready (`none`
models `m.is_empty()`), and the unit's reported `MainPID`. -/
structure IterIn where
  ready : List Nat
  monitor_fd : Nat
  msg : Option MonMsg
  mainPID : Nat

/-- One iteration of the wait loop (run.py lines 291-328), reduced to its
exit decision.  The stdin/pty forwarding branches never break.  An empty
monitor message `continue`s, skipping the polling check; a decoded message
breaks iff `monitorCompletes`; otherwise the polling heuristic of lines
325-328 is consulted. -/
def iterBreaks (unitPath startJob : String) (wp : Option ℚ) (it : IterIn) : Bool :=
  if it.monitor_fd ∈ it.ready then
    match it.msg with
    | none => false
    | some m =>
      if monitorCompletes unitPath startJob m then true
      else pollBreak wp it.ready it.mainPID
  else pollBreak wp it.ready it.mainPID

/-! ## The failure policy (run.py lines 330-336) -/

/-- `PystemdRunError` as raised at run.py lines 332-336; the message embeds
the original `cmd` and the recorded exit status, which we carry as fields.
(The exception class itself lives in `pystemd/exceptions.py`, outside
`src/`; the spec only requires that the error carries both values.) -/
structure PystemdRunError where
  cmd : List String
  status : Int
deriving DecidableEq

/-- run.py lines 330-336: raise only when `raise_on_fail` was requested and
`unit.Service.ExecMainStatus` is truthy (a nonzero integer). -/
def checkRaise (raise_on_fail : Bool) (cmd : List String) (execMainStatus : Int) :
    Option PystemdRunError :=
  if raise_on_fail then
    if execMainStatus ≠ 0 then some ⟨cmd, execMainStatus⟩ else none
  else none

/-! ## Concrete parameter values used by witnesses and counterexamples -/

/-- A minimal baseline call: `pystemd.run(["/bin/sleep"])` with everything
else defaulted. -/
def P0 : RunParams :=
  { cmd := some ["/bin/sleep"], stop_cmd := none, stop_post_cmd := none
    start_pre_cmd := none, start_post_cmd := none, service_type := none
    name := "pystemd00.service", user := none, nice := none
    runtime_max_sec := none, env := [], extra := [], cwd := none
    remain_after_exit := false, collect := false, slice_ := none
    pty_path := none, stdin := none, stdout := none, stderr := none }

/-- `runtime_max_sec = 1` together with an extra override
`{b"RuntimeMaxUSec": 2}`. -/
def P1c : RunParams :=
  { P0 with runtime_max_sec := some 1, extra := [("RuntimeMaxUSec", some (PV.vnum 2))] }

/-- No `stop_cmd` and no `ExecStop` override. -/
def P3c : RunParams := P0

/-- An empty caller command list and no `ExecStart` override. -/
def P6c : RunParams := { P0 with cmd := some [] }

/-- A pty requested on a remote machine: `OpenPTY` hands back master
descriptor 7 and path `/dev/pts/9`. -/
def I7c : SetupIn :=
  { pty := true, machine := some "mymachine", pty_master := none
    pty_path := none, stdin := none, stdout := none, env := []
    osTERM := none, machineOpenPTY := (7, "/dev/pts/9"), localOpenPTY := (5, 6)
    ttyname := "/dev/pts/3", termAttrs := fun _ => [], setraw := fun _ => []
    wait := true }

/-- A locally created pty with stdin and stdout descriptors supplied. -/
def I8w : SetupIn :=
  { pty := true, machine := none, pty_master := none, pty_path := none
    stdin := some 0, stdout := some 1
    env := [(⟨false, "TERM"⟩, "xterm"), (⟨true, "LANG"⟩, "C")]
    osTERM := some "xterm-256color", machineOpenPTY := (7, "/dev/pts/9")
    localOpenPTY := (3, 4), ttyname := "/dev/pts/2"
    termAttrs := fun fd => [Int.ofNat fd, 42], setraw := fun _ => [0, 0]
    wait := true }

/-! ## Association-list lemmas for `PyDict` -/

theorem PyDict.keys_nil : PyDict.keys [] = [] := rfl

theorem PyDict.keys_cons (k : Key) (v : Option PV) (d : PyDict) :
    PyDict.keys ((k, v) :: d) = k :: PyDict.keys d := rfl

theorem PyDict.get_set (d : PyDict) (k : Key) (v : Option PV) (k' : Key) :
    PyDict.get (PyDict.set d k v) k' = if k' = k then some v else PyDict.get d k' := by
  induction d with
  | nil =>
    by_cases h : k' = k
    · simp [PyDict.set, PyDict.get, h]
    · simp [PyDict.set, PyDict.get, h, Ne.symm h]
  | cons hd tl ih =>
    obtain ⟨k0, v0⟩ := hd
    by_cases hk : k0 = k
    · subst hk
      by_cases h' : k' = k0
      · subst h'; simp [PyDict.set, PyDict.get]
      · simp [PyDict.set, PyDict.get, h', Ne.symm h']
    · by_cases h' : k' = k0
      · subst h'
        simp [PyDict.set, PyDict.get, hk, Ne.symm hk]
      · simp [PyDict.set, PyDict.get, hk, h', Ne.symm h', ih]

theorem PyDict.mem_keys_set (d : PyDict) (k : Key) (v : Option PV) (k' : Key) :
    k' ∈ PyDict.keys (PyDict.set d k v) ↔ k' ∈ PyDict.keys d ∨ k' = k := by
  induction d with
  | nil => simp [PyDict.set, PyDict.keys]
  | cons hd tl ih =>
    obtain ⟨k0, v0⟩ := hd
    by_cases hk : k0 = k
    · subst hk
      have hs : PyDict.set ((k0, v0) :: tl) k0 v = (k0, v) :: tl := by
        simp [PyDict.set]
      rw [hs, PyDict.keys_cons, PyDict.keys_cons]
      simp only [List.mem_cons]
      tauto
    · have hs : PyDict.set ((k0, v0) :: tl) k v = (k0, v0) :: PyDict.set tl k v := by
        simp [PyDict.set, hk]
      rw [hs, PyDict.keys_cons, PyDict.keys_cons]
      simp only [List.mem_cons, ih]
      tauto

theorem PyDict.nodup_keys_set (d : PyDict) (k : Key) (v : Option PV)
    (h : (PyDict.keys d).Nodup) : (PyDict.keys (PyDict.set d k v)).Nodup := by
  induction d with
  | nil => simp [PyDict.set, PyDict.keys]
  | cons hd tl ih =>
    obtain ⟨k0, v0⟩ := hd
    rw [PyDict.keys_cons, List.nodup_cons] at h
    by_cases hk : k0 = k
    · subst hk
      have hs : PyDict.set ((k0, v0) :: tl) k0 v = (k0, v) :: tl := by
        simp [PyDict.set]
      rw [hs, PyDict.keys_cons, List.nodup_cons]
      exact h
    · have hs : PyDict.set ((k0, v0) :: tl) k v = (k0, v0) :: PyDict.set tl k v := by
        simp [PyDict.set, hk]
      rw [hs, PyDict.keys_cons, List.nodup_cons]
      refine ⟨fun hmem => ?_, ih h.2⟩
      rcases (PyDict.mem_keys_set tl k v k0).mp hmem with hm | hm
      · exact h.1 hm
      · exact hk hm

theorem PyDict.get_eq_none_of_not_mem (d : PyDict) (k : Key)
    (h : k ∉ PyDict.keys d) : PyDict.get d k = none := by
  induction d with
  | nil => rfl
  | cons hd tl ih =>
    obtain ⟨k0, v0⟩ := hd
    rw [PyDict.keys_cons, List.mem_cons] at h
    push_neg at h
    simp only [PyDict.get, if_neg (fun hh : k0 = k => h.1 hh.symm)]
    exact ih h.2

theorem PyDict.update_nil (d : PyDict) : PyDict.update d [] = d := rfl

theorem PyDict.update_cons (d : PyDict) (k : Key) (v : Option PV) (e : PyDict) :
    PyDict.update d ((k, v) :: e) = PyDict.update (PyDict.set d k v) e := rfl

theorem PyDict.get_update (d e : PyDict) (k : Key) (he : (PyDict.keys e).Nodup) :
    PyDict.get (PyDict.update d e) k =
      match PyDict.get e k with
      | some v => some v
      | none => PyDict.get d k := by
  induction e generalizing d with
  | nil => simp [PyDict.update, PyDict.get]
  | cons hd tl ih =>
    obtain ⟨k0, v0⟩ := hd
    rw [PyDict.keys_cons, List.nodup_cons] at he
    rw [PyDict.update_cons, ih _ he.2]
    by_cases hk : k0 = k
    · subst hk
      rw [PyDict.get_eq_none_of_not_mem tl k0 he.1]
      simp [PyDict.get, PyDict.get_set]
    · simp only [PyDict.get, if_neg hk]
      cases htl : PyDict.get tl k with
      | some v => rfl
      | none => simp [PyDict.get_set, Ne.symm hk]

theorem PyDict.nodup_keys_update (d e : PyDict) (h : (PyDict.keys d).Nodup) :
    (PyDict.keys (PyDict.update d e)).Nodup := by
  induction e generalizing d with
  | nil => exact h
  | cons hd tl ih =>
    obtain ⟨k0, v0⟩ := hd
    rw [PyDict.update_cons]
    exact ih _ (PyDict.nodup_keys_set _ _ _ h)

theorem PyDict.get_popKey_ne (d : PyDict) (k k' : Key) (h : k' ≠ k) :
    PyDict.get (PyDict.popKey d k) k' = PyDict.get d k' := by
  induction d with
  | nil => rfl
  | cons hd tl ih =>
    obtain ⟨k0, v0⟩ := hd
    by_cases hk : k0 = k
    · subst hk
      simp [PyDict.popKey, PyDict.get, Ne.symm h]
    · by_cases h' : k0 = k'
      · simp [PyDict.popKey, PyDict.get, hk, h', h]
      · simp [PyDict.popKey, PyDict.get, hk, h', ih]

theorem PyDict.keys_popKey_sublist (d : PyDict) (k : Key) :
    (PyDict.keys (PyDict.popKey d k)).Sublist (PyDict.keys d) := by
  induction d with
  | nil => simp [PyDict.popKey]
  | cons hd tl ih =>
    obtain ⟨k0, v0⟩ := hd
    by_cases hk : k0 = k
    · simp only [PyDict.popKey, if_pos hk, PyDict.keys_cons]
      exact List.sublist_cons_self _ _
    · simp only [PyDict.popKey, if_neg hk, PyDict.keys_cons]
      exact ih.cons₂ _

theorem PyDict.nodup_keys_popKey (d : PyDict) (k : Key)
    (h : (PyDict.keys d).Nodup) : (PyDict.keys (PyDict.popKey d k)).Nodup :=
  (PyDict.keys_popKey_sublist d k).nodup h

theorem PyDict.get_popKey_self (d : PyDict) (k : Key)
    (h : (PyDict.keys d).Nodup) : PyDict.get (PyDict.popKey d k) k = none := by
  induction d with
  | nil => rfl
  | cons hd tl ih =>
    obtain ⟨k0, v0⟩ := hd
    rw [PyDict.keys_cons, List.nodup_cons] at h
    by_cases hk : k0 = k
    · subst hk
      simp only [PyDict.popKey, if_pos rfl]
      exact PyDict.get_eq_none_of_not_mem _ _ h.1
    · simp only [PyDict.popKey, if_neg hk, PyDict.get, if_neg hk]
      exact ih h.2

theorem keys_elideNone_sublist (d : PyDict) :
    (PyDict.keys (elideNone d)).Sublist (PyDict.keys d) := by
  unfold elideNone PyDict.keys
  exact (List.filter_sublist d).map Prod.fst

theorem mem_elideNone_isSome (d : PyDict) :
    ∀ kv ∈ elideNone d, kv.2.isSome = true := by
  intro kv hkv
  exact (List.mem_filter.mp hkv).2

theorem get_elideNone (d : PyDict) (k : Key) (h : (PyDict.keys d).Nodup) :
    PyDict.get (elideNone d) k =
      match PyDict.get d k with
      | some (some v) => some (some v)
      | _ => none := by
  induction d with
  | nil => rfl
  | cons hd tl ih =>
    obtain ⟨k0, v0⟩ := hd
    rw [PyDict.keys_cons, List.nodup_cons] at h
    cases v0 with
    | none =>
      have he : elideNone ((k0, none) :: tl) = elideNone tl := by
        simp [elideNone]
      rw [he]
      by_cases hk : k0 = k
      · subst hk
        have h1 : PyDict.get (elideNone tl) k0 = none :=
          PyDict.get_eq_none_of_not_mem _ _
            (fun hm => h.1 ((keys_elideNone_sublist tl).subset hm))
        rw [h1]
        simp [PyDict.get]
      · rw [ih h.2]
        simp [PyDict.get, hk]
    | some w =>
      have he : elideNone ((k0, some w) :: tl) = (k0, some w) :: elideNone tl := by
        simp [elideNone]
      rw [he]
      by_cases hk : k0 = k
      · subst hk; simp [PyDict.get]
      · simp only [PyDict.get, if_neg hk]
        exact ih h.2

/-! ## Structure of the built property mapping -/

theorem getVal_elide_of_nodup (D : PyDict) (k : Key) (hD : (PyDict.keys D).Nodup) :
    PyDict.getVal (elideNone D) k = (PyDict.get D k).bind id := by
  rw [PyDict.getVal, get_elideNone _ _ hD]
  cases hm : PyDict.get D k with
  | none => rfl
  | some v => cases v <;> rfl

theorem nodup_keys_baseDict (p : RunParams) : (PyDict.keys (baseDict p)).Nodup := by
  have hup1 : (PyDict.keys
      (if truthyS p.slice_ then PyDict.set [] "Slice" (p.slice_.map PV.vstr) else [])).Nodup := by
    split
    · exact PyDict.nodup_keys_set _ _ _ (by simp [PyDict.keys])
    · simp [PyDict.keys]
  simp only [baseDict]
  split
  · exact PyDict.nodup_keys_update _ _ hup1
  · exact PyDict.nodup_keys_update _ _ hup1

theorem nodup_keys_bigDict (p : RunParams) (e1 e2 e3 e4 e5 : List Cmd) :
    (PyDict.keys (bigDict p e1 e2 e3 e4 e5)).Nodup :=
  PyDict.nodup_keys_update _ _ (nodup_keys_baseDict p)

theorem nodup_keys_poppedExtra (extra : PyDict) (h : (PyDict.keys extra).Nodup) :
    (PyDict.keys (poppedExtra extra)).Nodup := by
  unfold poppedExtra
  exact PyDict.nodup_keys_popKey _ _ (PyDict.nodup_keys_popKey _ _
    (PyDict.nodup_keys_popKey _ _ (PyDict.nodup_keys_popKey _ _
      (PyDict.nodup_keys_popKey _ _ h))))

theorem build_dict_eq (p : RunParams) (d : PyDict) (h : buildUnitProperties p = some d) :
    ∃ e1 e2 e3 e4 e5,
      cmdsOf (PyDict.get p.extra "ExecStart") = some e1 ∧
      cmdsOf (PyDict.get p.extra "ExecStop") = some e2 ∧
      cmdsOf (PyDict.get p.extra "ExecStopPost") = some e3 ∧
      cmdsOf (PyDict.get p.extra "ExecStartPre") = some e4 ∧
      cmdsOf (PyDict.get p.extra "ExecStartPost") = some e5 ∧
      d = elideNone (PyDict.update (bigDict p e1 e2 e3 e4 e5) (poppedExtra p.extra)) := by
  have g2 : PyDict.get (PyDict.popKey p.extra "ExecStart") "ExecStop" =
      PyDict.get p.extra "ExecStop" := PyDict.get_popKey_ne _ _ _ (by decide)
  have g3 : PyDict.get (PyDict.popKey (PyDict.popKey p.extra "ExecStart") "ExecStop")
      "ExecStopPost" = PyDict.get p.extra "ExecStopPost" := by
    rw [PyDict.get_popKey_ne _ _ _ (by decide), PyDict.get_popKey_ne _ _ _ (by decide)]
  have g4 : PyDict.get (PyDict.popKey (PyDict.popKey (PyDict.popKey p.extra "ExecStart")
      "ExecStop") "ExecStopPost") "ExecStartPre" = PyDict.get p.extra "ExecStartPre" := by
    rw [PyDict.get_popKey_ne _ _ _ (by decide), PyDict.get_popKey_ne _ _ _ (by decide),
        PyDict.get_popKey_ne _ _ _ (by decide)]
  have g5 : PyDict.get (PyDict.popKey (PyDict.popKey (PyDict.popKey
      (PyDict.popKey p.extra "ExecStart") "ExecStop") "ExecStopPost") "ExecStartPre")
      "ExecStartPost" = PyDict.get p.extra "ExecStartPost" := by
    rw [PyDict.get_popKey_ne _ _ _ (by decide), PyDict.get_popKey_ne _ _ _ (by decide),
        PyDict.get_popKey_ne _ _ _ (by decide), PyDict.get_popKey_ne _ _ _ (by decide)]
  simp only [buildUnitProperties] at h
  rw [g2, g3, g4, g5] at h
  cases h1 : cmdsOf (PyDict.get p.extra "ExecStart") with
  | none => rw [h1] at h; simp only [Option.bind_eq_bind, Option.none_bind] at h; cases h
  | some e1 =>
  rw [h1] at h
  simp only [Option.bind_eq_bind, Option.some_bind] at h
  cases h2 : cmdsOf (PyDict.get p.extra "ExecStop") with
  | none => rw [h2] at h; simp only [Option.bind_eq_bind, Option.none_bind] at h; cases h
  | some e2 =>
  rw [h2] at h
  simp only [Option.bind_eq_bind, Option.some_bind] at h
  cases h3 : cmdsOf (PyDict.get p.extra "ExecStopPost") with
  | none => rw [h3] at h; simp only [Option.bind_eq_bind, Option.none_bind] at h; cases h
  | some e3 =>
  rw [h3] at h
  simp only [Option.bind_eq_bind, Option.some_bind] at h
  cases h4 : cmdsOf (PyDict.get p.extra "ExecStartPre") with
  | none => rw [h4] at h; simp only [Option.bind_eq_bind, Option.none_bind] at h; cases h
  | some e4 =>
  rw [h4] at h
  simp only [Option.bind_eq_bind, Option.some_bind] at h
  cases h5 : cmdsOf (PyDict.get p.extra "ExecStartPost") with
  | none => rw [h5] at h; simp only [Option.bind_eq_bind, Option.none_bind] at h; cases h
  | some e5 =>
  rw [h5] at h
  simp only [Option.bind_eq_bind, Option.some_bind, Option.pure_def, Option.some.injEq] at h
  exact ⟨e1, e2, e3, e4, e5, rfl, rfl, rfl, rfl, rfl, h.symm⟩

theorem get_bigDict_runtime (p : RunParams) (e1 e2 e3 e4 e5 : List Cmd) :
    PyDict.get (bigDict p e1 e2 e3 e4 e5) "RuntimeMaxUSec" =
      some ((runtimeMaxUSec p.runtime_max_sec).map PV.vnum) := by
  unfold bigDict
  rw [PyDict.get_update _ _ _ (by simp +decide [PyDict.keys])]
  rfl

theorem get_poppedExtra_runtime (extra : PyDict) :
    PyDict.get (poppedExtra extra) "RuntimeMaxUSec" = PyDict.get extra "RuntimeMaxUSec" := by
  unfold poppedExtra
  rw [PyDict.get_popKey_ne _ _ _ (by decide), PyDict.get_popKey_ne _ _ _ (by decide),
      PyDict.get_popKey_ne _ _ _ (by decide), PyDict.get_popKey_ne _ _ _ (by decide),
      PyDict.get_popKey_ne _ _ _ (by decide)]

/-- C1 (amended): in the submitted property mapping, `RuntimeMaxUSec` equals
the extra-overrides value whenever that mapping supplies the key with a
non-null value (the `update` of run.py line 259 lets overrides win); when the
override value is null, or absent with `runtime_max_sec` null, the key is
absent; and only when the key is not overridden does it equal
`runtime_max_sec × 10⁶` for a given (non-null) `runtime_max_sec` — including
`runtime_max_sec = 0`, which is submitted as `0`, not elided. -/
theorem c1_runtime_max_usec (p : RunParams) (d : PyDict)
    (hx : (PyDict.keys p.extra).Nodup) (h : buildUnitProperties p = some d) :
    PyDict.getVal d "RuntimeMaxUSec" =
      (PyDict.get p.extra "RuntimeMaxUSec").getD
        ((runtimeMaxUSec p.runtime_max_sec).map PV.vnum) := by
  obtain ⟨e1, e2, e3, e4, e5, h1, h2, h3, h4, h5, hd⟩ := build_dict_eq p d h
  subst hd
  have hpe : (PyDict.keys (poppedExtra p.extra)).Nodup := nodup_keys_poppedExtra _ hx
  rw [getVal_elide_of_nodup _ _ (PyDict.nodup_keys_update _ _ (nodup_keys_bigDict p e1 e2 e3 e4 e5)),
      PyDict.get_update _ _ _ hpe, get_poppedExtra_runtime, get_bigDict_runtime]
  cases hx2 : PyDict.get p.extra "RuntimeMaxUSec" with
  | none => cases hv : runtimeMaxUSec p.runtime_max_sec <;> simp
  | some v => cases v <;> simp

/-- C1 witness for the amended theorem, at the same concrete call as the
counterexample: `runtime_max_sec = 1` with override `{RuntimeMaxUSec: 2}`. -/
theorem c1_runtime_max_usec_witness :
    PyDict.getVal ((buildUnitProperties P1c).getD []) "RuntimeMaxUSec" =
      (PyDict.get P1c.extra "RuntimeMaxUSec").getD
        ((runtimeMaxUSec P1c.runtime_max_sec).map PV.vnum) :=
  c1_runtime_max_usec P1c ((buildUnitProperties P1c).getD []) (by decide) (by rfl)

/-- C1 counterexample: with `runtime_max_sec = 1` (given and truthy) and the
extra override `{b"RuntimeMaxUSec": 2}`, the submitted property is `2` — the
raw override value — and not `1 × 10⁶` as the claim requires. -/
theorem c1_runtime_max_usec_counterexample :
    (buildUnitProperties P1c).map (fun d => PyDict.getVal d "RuntimeMaxUSec") =
      some (some (PV.vnum 2)) ∧
    (buildUnitProperties P1c).map (fun d => PyDict.getVal d "RuntimeMaxUSec") ≠
      some (some (PV.vnum (1 * 1000000))) := by
  refine ⟨rfl, ?_⟩
  decide

theorem get_bigDict_execStart (p : RunParams) (e1 e2 e3 e4 e5 : List Cmd) :
    PyDict.get (bigDict p e1 e2 e3 e4 e5) "ExecStart" =
      some (some (PV.vcmds (x2cmdlist p.cmd ++ e1))) := by
  unfold bigDict
  rw [PyDict.get_update _ _ _ (by simp +decide [PyDict.keys])]
  rfl

theorem get_bigDict_execStop (p : RunParams) (e1 e2 e3 e4 e5 : List Cmd) :
    PyDict.get (bigDict p e1 e2 e3 e4 e5) "ExecStop" =
      some (orNoneCmds (x2cmdlist p.stop_cmd ++ e2)) := by
  unfold bigDict
  rw [PyDict.get_update _ _ _ (by simp +decide [PyDict.keys])]
  rfl

theorem get_bigDict_execStopPost (p : RunParams) (e1 e2 e3 e4 e5 : List Cmd) :
    PyDict.get (bigDict p e1 e2 e3 e4 e5) "ExecStopPost" =
      some (orNoneCmds (x2cmdlist p.stop_post_cmd ++ e3)) := by
  unfold bigDict
  rw [PyDict.get_update _ _ _ (by simp +decide [PyDict.keys])]
  rfl

theorem get_bigDict_execStartPre (p : RunParams) (e1 e2 e3 e4 e5 : List Cmd) :
    PyDict.get (bigDict p e1 e2 e3 e4 e5) "ExecStartPre" =
      some (orNoneCmds (x2cmdlist p.start_pre_cmd ++ e4)) := by
  unfold bigDict
  rw [PyDict.get_update _ _ _ (by simp +decide [PyDict.keys])]
  rfl

theorem get_bigDict_execStartPost (p : RunParams) (e1 e2 e3 e4 e5 : List Cmd) :
    PyDict.get (bigDict p e1 e2 e3 e4 e5) "ExecStartPost" =
      some (orNoneCmds (x2cmdlist p.start_post_cmd ++ e5)) := by
  unfold bigDict
  rw [PyDict.get_update _ _ _ (by simp +decide [PyDict.keys])]
  rfl

theorem get_poppedExtra_execStart (extra : PyDict) (hx : (PyDict.keys extra).Nodup) :
    PyDict.get (poppedExtra extra) "ExecStart" = none := by
  unfold poppedExtra
  rw [PyDict.get_popKey_ne _ _ _ (by decide), PyDict.get_popKey_ne _ _ _ (by decide),
      PyDict.get_popKey_ne _ _ _ (by decide), PyDict.get_popKey_ne _ _ _ (by decide)]
  exact PyDict.get_popKey_self _ _ hx

theorem get_poppedExtra_execStop (extra : PyDict) (hx : (PyDict.keys extra).Nodup) :
    PyDict.get (poppedExtra extra) "ExecStop" = none := by
  unfold poppedExtra
  rw [PyDict.get_popKey_ne _ _ _ (by decide), PyDict.get_popKey_ne _ _ _ (by decide),
      PyDict.get_popKey_ne _ _ _ (by decide)]
  exact PyDict.get_popKey_self _ _ (PyDict.nodup_keys_popKey _ _ hx)

theorem get_poppedExtra_execStopPost (extra : PyDict) (hx : (PyDict.keys extra).Nodup) :
    PyDict.get (poppedExtra extra) "ExecStopPost" = none := by
  unfold poppedExtra
  rw [PyDict.get_popKey_ne _ _ _ (by decide), PyDict.get_popKey_ne _ _ _ (by decide)]
  exact PyDict.get_popKey_self _ _
    (PyDict.nodup_keys_popKey _ _ (PyDict.nodup_keys_popKey _ _ hx))

theorem get_poppedExtra_execStartPre (extra : PyDict) (hx : (PyDict.keys extra).Nodup) :
    PyDict.get (poppedExtra extra) "ExecStartPre" = none := by
  unfold poppedExtra
  rw [PyDict.get_popKey_ne _ _ _ (by decide)]
  exact PyDict.get_popKey_self _ _
    (PyDict.nodup_keys_popKey _ _ (PyDict.nodup_keys_popKey _ _
      (PyDict.nodup_keys_popKey _ _ hx)))

theorem get_poppedExtra_execStartPost (extra : PyDict) (hx : (PyDict.keys extra).Nodup) :
    PyDict.get (poppedExtra extra) "ExecStartPost" = none := by
  unfold poppedExtra
  exact PyDict.get_popKey_self _ _
    (PyDict.nodup_keys_popKey _ _ (PyDict.nodup_keys_popKey _ _
      (PyDict.nodup_keys_popKey _ _ (PyDict.nodup_keys_popKey _ _ hx))))

/-- C3 (amended): each `ExecStart`-class property of the submitted mapping is
the caller-given command list concatenated with the same-purpose override
list popped from the extra-overrides mapping — submitted as-is for
`ExecStart` (even when empty), but elided (absent, per the `or None` of
run.py lines 240-244 and the comprehension of line 260) for the
stop/stop-post/start-pre/start-post classes when the concatenation is empty;
and after the pops none of the five keys remains in the extra-overrides
mapping, so the later `update` cannot apply them a second time. -/
theorem c3_exec_command_lists (p : RunParams) (d : PyDict)
    (hx : (PyDict.keys p.extra).Nodup) (h : buildUnitProperties p = some d) :
    PyDict.getVal d "ExecStart" =
      some (PV.vcmds (x2cmdlist p.cmd ++ extraCmds p.extra "ExecStart")) ∧
    PyDict.getVal d "ExecStop" =
      orNoneCmds (x2cmdlist p.stop_cmd ++ extraCmds p.extra "ExecStop") ∧
    PyDict.getVal d "ExecStopPost" =
      orNoneCmds (x2cmdlist p.stop_post_cmd ++ extraCmds p.extra "ExecStopPost") ∧
    PyDict.getVal d "ExecStartPre" =
      orNoneCmds (x2cmdlist p.start_pre_cmd ++ extraCmds p.extra "ExecStartPre") ∧
    PyDict.getVal d "ExecStartPost" =
      orNoneCmds (x2cmdlist p.start_post_cmd ++ extraCmds p.extra "ExecStartPost") ∧
    PyDict.get (poppedExtra p.extra) "ExecStart" = none ∧
    PyDict.get (poppedExtra p.extra) "ExecStop" = none ∧
    PyDict.get (poppedExtra p.extra) "ExecStopPost" = none ∧
    PyDict.get (poppedExtra p.extra) "ExecStartPre" = none ∧
    PyDict.get (poppedExtra p.extra) "ExecStartPost" = none := by
  obtain ⟨e1, e2, e3, e4, e5, h1, h2, h3, h4, h5, hd⟩ := build_dict_eq p d h
  subst hd
  have hpe : (PyDict.keys (poppedExtra p.extra)).Nodup := nodup_keys_poppedExtra _ hx
  have hnd := PyDict.nodup_keys_update _ (poppedExtra p.extra)
    (nodup_keys_bigDict p e1 e2 e3 e4 e5)
  have he1 : extraCmds p.extra "ExecStart" = e1 := by simp [extraCmds, h1]
  have he2 : extraCmds p.extra "ExecStop" = e2 := by simp [extraCmds, h2]
  have he3 : extraCmds p.extra "ExecStopPost" = e3 := by simp [extraCmds, h3]
  have he4 : extraCmds p.extra "ExecStartPre" = e4 := by simp [extraCmds, h4]
  have he5 : extraCmds p.extra "ExecStartPost" = e5 := by simp [extraCmds, h5]
  refine ⟨?_, ?_, ?_, ?_, ?_, get_poppedExtra_execStart _ hx, get_poppedExtra_execStop _ hx,
    get_poppedExtra_execStopPost _ hx, get_poppedExtra_execStartPre _ hx,
    get_poppedExtra_execStartPost _ hx⟩
  · rw [getVal_elide_of_nodup _ _ hnd, PyDict.get_update _ _ _ hpe,
        get_poppedExtra_execStart _ hx, get_bigDict_execStart, he1]
    rfl
  · rw [getVal_elide_of_nodup _ _ hnd, PyDict.get_update _ _ _ hpe,
        get_poppedExtra_execStop _ hx, get_bigDict_execStop, he2]
    rfl
  · rw [getVal_elide_of_nodup _ _ hnd, PyDict.get_update _ _ _ hpe,
        get_poppedExtra_execStopPost _ hx, get_bigDict_execStopPost, he3]
    rfl
  · rw [getVal_elide_of_nodup _ _ hnd, PyDict.get_update _ _ _ hpe,
        get_poppedExtra_execStartPre _ hx, get_bigDict_execStartPre, he4]
    rfl
  · rw [getVal_elide_of_nodup _ _ hnd, PyDict.get_update _ _ _ hpe,
        get_poppedExtra_execStartPost _ hx, get_bigDict_execStartPost, he5]
    rfl

/-- C3 witness for the amended theorem: the baseline call `P0`, checking the
`ExecStart` conjunct with its hypotheses discharged concretely. -/
theorem c3_exec_command_lists_witness :
    PyDict.getVal ((buildUnitProperties P0).getD []) "ExecStart" =
      some (PV.vcmds (x2cmdlist P0.cmd ++ extraCmds P0.extra "ExecStart")) :=
  (c3_exec_command_lists P0 ((buildUnitProperties P0).getD []) (by decide) (by rfl)).1

/-- C3 counterexample: for the call `P3c` (no `stop_cmd`, no `ExecStop`
override) the concatenated `ExecStop` command list is `[] ++ [] = []`, yet
the submitted mapping has no `ExecStop` key at all — the property does not
equal the concatenation, it is elided. -/
theorem c3_exec_command_lists_counterexample :
    (buildUnitProperties P3c).map (fun d => PyDict.getVal d "ExecStop") = some none ∧
    (buildUnitProperties P3c).map (fun d => PyDict.getVal d "ExecStop") ≠
      some (some (PV.vcmds (x2cmdlist P3c.stop_cmd ++ extraCmds P3c.extra "ExecStop"))) := by
  refine ⟨rfl, ?_⟩
  decide

/-- C6 (amended): the submitted property mapping never contains a null
value (the comprehension of run.py line 260 elides them), and its
`ExecStart` entry is always present and equal to the caller command list
concatenated with the popped override — hence non-empty whenever that
concatenation is non-empty; for an empty caller command and no override the
code submits an empty `ExecStart` list (no non-emptiness is enforced). -/
theorem c6_no_null_values (p : RunParams) (d : PyDict)
    (hx : (PyDict.keys p.extra).Nodup) (h : buildUnitProperties p = some d) :
    (∀ kv ∈ d, kv.2.isSome = true) ∧
    PyDict.getVal d "ExecStart" =
      some (PV.vcmds (x2cmdlist p.cmd ++ extraCmds p.extra "ExecStart")) ∧
    (x2cmdlist p.cmd ++ extraCmds p.extra "ExecStart" ≠ [] →
      ∃ l, PyDict.getVal d "ExecStart" = some (PV.vcmds l) ∧ l ≠ []) := by
  obtain ⟨e1, e2, e3, e4, e5, h1, h2, h3, h4, h5, hd⟩ := build_dict_eq p d h
  have hpe : (PyDict.keys (poppedExtra p.extra)).Nodup := nodup_keys_poppedExtra _ hx
  have hnd := PyDict.nodup_keys_update _ (poppedExtra p.extra)
    (nodup_keys_bigDict p e1 e2 e3 e4 e5)
  have he1 : extraCmds p.extra "ExecStart" = e1 := by simp [extraCmds, h1]
  have hstart : PyDict.getVal d "ExecStart" =
      some (PV.vcmds (x2cmdlist p.cmd ++ extraCmds p.extra "ExecStart")) := by
    subst hd
    rw [getVal_elide_of_nodup _ _ hnd, PyDict.get_update _ _ _ hpe,
        get_poppedExtra_execStart _ hx, get_bigDict_execStart, he1]
    rfl
  refine ⟨?_, hstart, fun hne => ⟨_, hstart, hne⟩⟩
  intro kv hkv
  subst hd
  exact mem_elideNone_isSome _ kv hkv

/-- C6 witness: the baseline call `P0`; the no-null invariant applied to the
concrete `Description` entry of its submitted mapping. -/
theorem c6_no_null_values_witness :
    (("Description", some (PV.vstr "pystemd: pystemd00.service")) : Key × Option PV).2.isSome
      = true :=
  (c6_no_null_values P0 ((buildUnitProperties P0).getD []) (by decide) (by rfl)).1
    ("Description", some (PV.vstr "pystemd: pystemd00.service")) (by decide)

/-- C6 counterexample: for the call `P6c` (`cmd = []`, no override) the
submitted mapping contains `ExecStart` with the *empty* command list,
contradicting the claim that the `ExecStart` entry is always non-empty. -/
theorem c6_no_null_values_counterexample :
    (buildUnitProperties P6c).map (fun d => PyDict.getVal d "ExecStart") =
      some (some (PV.vcmds [])) := by
  rfl

/-! ## Resource guard, pty ownership, terminal restoration, env mutation -/

theorem cexit_registerAll_pipe {α : Type} (c : CExit α) (l : List α) :
    (CExit.registerAll c l).pipe = c.pipe ++ l := by
  induction l generalizing c with
  | nil => simp [CExit.registerAll]
  | cons a t ih =>
    show (CExit.registerAll (CExit.register c a) t).pipe = c.pipe ++ a :: t
    rw [ih]
    simp [CExit.register]

/-- C2 (confirmed): if the guarded scope registers the first `k` of `regs`
cleanups and then exits — normally (`exc = none`) or through a raised error
(`exc = some _`) — then the executed trace is exactly cleanups `1..k` in the
order `k, k-1, …, 1`, and each registered cleanup runs exactly as many times
as it was registered (so a cleanup registered once never runs twice). -/
theorem c2_resource_guard {α : Type} [DecidableEq α] (regs : List α) (k : Nat)
    (exc : Option String) (hk : k ≤ regs.length) :
    CExit.exitRun (CExit.registerAll ⟨[]⟩ (regs.take k)) exc = (regs.take k).reverse ∧
    ∀ a : α, (CExit.exitRun (CExit.registerAll ⟨[]⟩ (regs.take k)) exc).count a =
      (regs.take k).count a := by
  have _ := hk
  have hp : (CExit.registerAll (⟨[]⟩ : CExit α) (regs.take k)).pipe = regs.take k := by
    rw [cexit_registerAll_pipe]
    rfl
  constructor
  · show (CExit.registerAll (⟨[]⟩ : CExit α) (regs.take k)).pipe.reverse = (regs.take k).reverse
    rw [hp]
  · intro a
    show ((CExit.registerAll (⟨[]⟩ : CExit α) (regs.take k)).pipe.reverse.count a) =
      (regs.take k).count a
    rw [hp, List.count_reverse]

/-- C2 witness: four cleanups registered, error after the second; the trace
is `[20, 10]` with each element executed once. -/
theorem c2_resource_guard_witness :
    CExit.exitRun (CExit.registerAll ⟨[]⟩ ([10, 20, 30, 40].take 2)) (some "boom") =
      ([10, 20, 30, 40].take 2).reverse ∧
    ∀ a : Nat,
      (CExit.exitRun (CExit.registerAll ⟨[]⟩ ([10, 20, 30, 40].take 2)) (some "boom")).count a =
        ([10, 20, 30, 40].take 2).count a :=
  c2_resource_guard [10, 20, 30, 40] 2 (some "boom") (by decide)

theorem stdinBridge_regs_shape (stdin master : Option Nat) (ta : Nat → Attrs)
    (sr : Attrs → Attrs) :
    ∀ c ∈ (stdinBridge stdin master ta sr).regs, ∃ s a, c = Cleanup.setattrs s a := by
  intro c hc
  cases stdin <;> cases master <;> simp [stdinBridge] at hc
  exact ⟨_, _, hc⟩

theorem wb_regs_shape (w : Bool) :
    ∀ c ∈ (if w then [Cleanup.busClose] else []), c = Cleanup.busClose := by
  cases w <;> simp

theorem close_mem_runSetup (i : SetupIn) (fd : Nat) :
    Cleanup.close fd ∈ (runSetup i).regs ↔ Cleanup.close fd ∈ (ptyAcquire i).2.2 := by
  simp only [runSetup]
  split
  · simp only [List.mem_append]
    constructor
    · rintro ((h | h) | h)
      · exact h
      · obtain ⟨s, a, heq⟩ := stdinBridge_regs_shape _ _ _ _ _ h
        exact Cleanup.noConfusion heq
      · exact Cleanup.noConfusion (wb_regs_shape i.wait _ h)
    · exact fun h2 => Or.inl (Or.inl h2)
  · simp only [List.mem_append]
    constructor
    · rintro (h | h)
      · exact h
      · exact Cleanup.noConfusion (wb_regs_shape i.wait _ h)
    · exact fun h2 => Or.inl h2

/-- C7 (amended): a close of descriptor `fd` is executed on scope exit
(normal or error) precisely when the session allocated the pty locally
(`pty` requested without a machine) and `fd` is the locally created master.
In particular an externally supplied master is never closed, and — contrary
to the original claim — a master allocated through a remote machine's
`OpenPTY` has no close registered either (run.py line 189 sits only in the
local branch). -/
theorem c7_pty_master_close (i : SetupIn) (exc : Option String) (fd : Nat) :
    Cleanup.close fd ∈ sessionExit i exc ↔
      (i.pty = true ∧ truthyS i.machine = false ∧ fd = i.localOpenPTY.1) := by
  unfold sessionExit
  show Cleanup.close fd ∈ (runSetup i).regs.reverse ↔ _
  rw [List.mem_reverse, close_mem_runSetup]
  cases hp : i.pty with
  | false => simp [ptyAcquire, hp]
  | true =>
    cases hm : truthyS i.machine with
    | true => simp [ptyAcquire, hp, hm]
    | false => simp [ptyAcquire, hp, hm]

/-- C7 counterexample: a pty requested on machine `"mymachine"`; the remote
master is descriptor 7, yet no close of it (nor of anything) is in the exit
trace — the claim that a remotely allocated master is closed fails. -/
theorem c7_pty_master_close_counterexample :
    (runSetup I7c).master = some 7 ∧ I7c.pty = true ∧
    Cleanup.close 7 ∉ sessionExit I7c none := by
  refine ⟨rfl, rfl, ?_⟩
  decide

/-- C7 witness for the amended theorem: a locally created pty (`I8w`) has a
close of its master (descriptor 3) in the exit trace of an error exit. -/
theorem c7_pty_master_close_witness :
    Cleanup.close 3 ∈ sessionExit I8w (some "boom") :=
  (c7_pty_master_close I8w (some "boom") 3).mpr ⟨rfl, rfl, rfl⟩

/-- C8 (confirmed): when a caller stdin descriptor and a resolved pty master
are both present (under an active pty path), the attributes captured before
`tty.setraw` are exactly `tcgetattr(stdin)` at entry; the restoration
registered with the guard carries bit-identical attributes, and replaying
the exit trace — for a normal or an error exit — leaves stdin's terminal
attributes equal to the captured snapshot. -/
theorem c8_terminal_attrs (i : SetupIn) (s m : Nat) (exc : Option String)
    (hin : i.stdin = some s) (hm : (ptyAcquire i).1 = some m)
    (hpath : truthyS (ptyAcquire i).2.1 = true) :
    (runSetup i).captured = some (i.termAttrs s) ∧
    Cleanup.setattrs s (i.termAttrs s) ∈ sessionExit i exc ∧
    runCleanups (runSetup i).attrs (sessionExit i exc) s = i.termAttrs s := by
  have hsb : stdinBridge i.stdin (ptyAcquire i).1 i.termAttrs i.setraw =
      { regs := [Cleanup.setattrs s (i.termAttrs s)]
        sel := [s]
        captured := some (i.termAttrs s)
        attrs := fun fd => if fd = s then i.setraw (i.termAttrs s) else i.termAttrs fd } := by
    rw [hin, hm]
    rfl
  refine ⟨?_, ?_, ?_⟩
  · simp [runSetup, hpath, hsb]
  · simp [sessionExit, CExit.exitRun, runSetup, hpath, hsb]
  · simp only [sessionExit, CExit.exitRun, runSetup, hpath, if_true, hsb]
    cases hp2 : i.pty <;> cases hmach : truthyS i.machine <;> cases hw : i.wait <;>
      simp [ptyAcquire, hp2, hmach, hw, runCleanups, applyCleanup]

/-- C8 witness: the locally created pty session `I8w` with stdin 0, master 3
and an error exit; the captured, registered and restored attributes all
equal `tcgetattr(0) = [0, 42]`. -/
theorem c8_terminal_attrs_witness :
    (runSetup I8w).captured = some (I8w.termAttrs 0) ∧
    Cleanup.setattrs 0 (I8w.termAttrs 0) ∈ sessionExit I8w (some "boom") ∧
    runCleanups (runSetup I8w).attrs (sessionExit I8w (some "boom")) 0 = I8w.termAttrs 0 :=
  c8_terminal_attrs I8w 0 3 (some "boom") rfl rfl rfl

theorem env_setE_self (env : EnvMap) (k : EKey) (v : String)
    (h : EnvMap.getE env k = some v) : EnvMap.setE env k v = env := by
  induction env with
  | nil => cases h
  | cons hd tl ih =>
    obtain ⟨k0, v0⟩ := hd
    by_cases hk : k0 = k
    · subst hk
      simp [EnvMap.getE] at h
      simp [EnvMap.setE, h]
    · simp [EnvMap.getE, hk] at h
      simp [EnvMap.setE, hk, ih h]

theorem env_setE_absent (env : EnvMap) (k : EKey) (v : String)
    (h : EnvMap.getE env k = none) : EnvMap.setE env k v = env ++ [(k, v)] := by
  induction env with
  | nil => rfl
  | cons hd tl ih =>
    obtain ⟨k0, v0⟩ := hd
    by_cases hk : k0 = k
    · subst hk
      simp [EnvMap.getE] at h
    · simp [EnvMap.getE, hk] at h
      simp [EnvMap.setE, hk, ih h]

/-- C10 (confirmed): under an active pty path with both a stdout descriptor
and a resolved master present and a truthy `TERM` in the calling process
environment, the call mutates the caller's `env` dict in place — the exact
bytes key `b"TERM"` is appended when absent (even if a `str` key `"TERM"`
exists), so a non-empty `env` is not left unchanged; when the exact bytes
key is already present, `env` is rewritten with its own value and is
unchanged as a mapping. -/
theorem c10_env_term_insert (i : SetupIn) (o m : Nat) (t : String)
    (hpath : truthyS (ptyAcquire i).2.1 = true)
    (hout : i.stdout = some o) (hm : (ptyAcquire i).1 = some m)
    (ht : i.osTERM = some t) (hte : t.isEmpty = false) :
    (EnvMap.getE i.env bTERM = none →
      (runSetup i).env = i.env ++ [(bTERM, t)] ∧ (runSetup i).env ≠ i.env) ∧
    (∀ v, EnvMap.getE i.env bTERM = some v → (runSetup i).env = i.env) := by
  have hob : stdoutBridge i.stdout (ptyAcquire i).1 i.env i.osTERM =
      { env := EnvMap.setE i.env bTERM ((EnvMap.getE i.env bTERM).getD t)
        sel := [m] } := by
    rw [hout, hm, ht]
    simp [stdoutBridge, hte]
  have henv : (runSetup i).env =
      EnvMap.setE i.env bTERM ((EnvMap.getE i.env bTERM).getD t) := by
    simp [runSetup, hpath, hob]
  constructor
  · intro habs
    rw [henv, habs]
    constructor
    · exact env_setE_absent _ _ _ habs
    · rw [env_setE_absent _ _ _ habs]
      intro hcon
      have hlen := congrArg List.length hcon
      simp at hlen
  · intro v hv
    rw [henv, hv]
    exact env_setE_self _ _ _ hv

/-- C10 witness: the session `I8w`, whose caller env is non-empty and holds
a `str` key `"TERM"` but not the bytes key; the bytes key `b"TERM"` is
appended and the env is observably mutated. -/
theorem c10_env_term_insert_witness :
    (runSetup I8w).env = I8w.env ++ [(bTERM, "xterm-256color")] ∧
    (runSetup I8w).env ≠ I8w.env :=
  (c10_env_term_insert I8w 1 3 "xterm-256color" rfl rfl rfl rfl rfl).1 rfl

/-! ## Completion decisions and failure policy -/

/-- C4 (confirmed): a decoded monitor message breaks the wait loop iff its
object path equals the unit's path, its changed-properties interface is the
systemd unit interface, the job path extracted from the body (default
`"/"`) differs from the start job, and the extracted substate is one of
`exited`, `failed`, `dead`; any substate outside that set — or an absent
one — does not complete the loop even with matching path and interface. -/
theorem c4_completion_signal (u j : String) (m : MonMsg) :
    monitorCompletes u j m = true ↔
      (m.mpath = u ∧ m.miface = unitChangeIface ∧ msgJobPath m ≠ j ∧
        ∃ s, m.msubstate = some s ∧ s ∈ EXIT_SUBSTATES) := by
  constructor
  · intro hb
    unfold monitorCompletes at hb
    split_ifs at hb with h1 h2
    · refine ⟨h1.1, h1.2, h2.1, ?_⟩
      have hsub := h2.2
      cases hss : m.msubstate with
      | none => rw [hss] at hsub; simp [substateIsExit] at hsub
      | some s =>
        rw [hss] at hsub
        exact ⟨s, rfl, by simpa [substateIsExit] using hsub⟩
  · rintro ⟨hp, hi, hj, s, hs, hmem⟩
    unfold monitorCompletes
    split_ifs with h1 h2
    · rfl
    · exact absurd ⟨hj, by simp [substateIsExit, hs, hmem]⟩ h2
    · exact absurd ⟨hp, hi⟩ h1

theorem pollBreak_iff (wp : Option ℚ) (ready : List Nat) (pid : Nat) :
    pollBreak wp ready pid = true ↔
      (pollTruthy wp = true ∧ ready = [] ∧ pid = 0) := by
  unfold pollBreak
  simp [Bool.and_eq_true, List.isEmpty_iff, and_assoc]

/-- C5 (confirmed): provided the monitor branch did not already complete the
iteration (no decoded completing message), the wait loop exits through the
polling heuristic iff all three conditions hold at once: the polling
interval is truthy, `select` returned with no descriptor ready, and the
unit's reported `MainPID` is zero; if any fails, the polling branch does
not exit the loop. -/
theorem c5_poll_heuristic (u j : String) (wp : Option ℚ) (it : IterIn)
    (hnm : ∀ mm, it.msg = some mm → monitorCompletes u j mm = false) :
    iterBreaks u j wp it = true ↔
      (pollTruthy wp = true ∧ it.ready = [] ∧ it.mainPID = 0) := by
  unfold iterBreaks
  by_cases hmem : it.monitor_fd ∈ it.ready
  · rw [if_pos hmem]
    cases hmsg : it.msg with
    | none =>
      constructor
      · intro hb; exact Bool.noConfusion hb
      · rintro ⟨-, hready, -⟩
        rw [hready] at hmem
        exact absurd hmem (List.not_mem_nil _)
    | some mm =>
      show (if monitorCompletes u j mm = true then true
        else pollBreak wp it.ready it.mainPID) = true ↔ _
      rw [if_neg (by simp [hnm mm hmsg])]
      exact pollBreak_iff wp it.ready it.mainPID
  · rw [if_neg hmem]
    exact pollBreak_iff wp it.ready it.mainPID

/-- C5 witness: an iteration with a configured interval, nothing ready and
`MainPID = 0` breaks the loop; the equivalence is instantiated concretely. -/
theorem c5_poll_heuristic_witness :
    iterBreaks "u" "j" (some 1) ⟨[], 5, none, 0⟩ = true ↔
      (pollTruthy (some 1) = true ∧ ([] : List Nat) = [] ∧ (0 : Nat) = 0) :=
  c5_poll_heuristic "u" "j" (some 1) ⟨[], 5, none, 0⟩ (fun _ h => Option.noConfusion h)

/-- C9 (confirmed): the run-failure error is produced iff failure-raising
was requested and the recorded `ExecMainStatus` is nonzero (Python
truthiness of the integer), and the produced error carries exactly the
original command and that status. -/
theorem c9_raise_on_fail (r : Bool) (c : List String) (s : Int) :
    ((checkRaise r c s).isSome = true ↔ (r = true ∧ s ≠ 0)) ∧
    (∀ e, checkRaise r c s = some e → e.cmd = c ∧ e.status = s) := by
  constructor
  · cases r <;> by_cases hs : s = 0 <;> simp [checkRaise, hs]
  · intro e he
    cases r with
    | false => simp [checkRaise] at he
    | true =>
      by_cases hs : s = 0
      · simp [checkRaise, hs] at he
      · simp [checkRaise, hs] at he
        subst he
        exact ⟨rfl, rfl⟩

/-- C9 witness: `raise_on_fail = true` and a recorded exit status of `1`
raise the error carrying the command and status `1`. -/
theorem c9_raise_on_fail_witness :
    (⟨["/bin/false"], 1⟩ : PystemdRunError).cmd = ["/bin/false"] ∧
    (⟨["/bin/false"], 1⟩ : PystemdRunError).status = 1 :=
  (c9_raise_on_fail true ["/bin/false"] 1).2 ⟨["/bin/false"], 1⟩ rfl
